import Mathlib

/-!
Verification development for the Kiali dashboard repository sample.

Two subsystems are embedded here:

* the Find/Hide query engine (Attribute Schema, Tokenizer, Parser, Preset
  Registry, Evaluator, Selection Controller).  The engine's implementation is
  not part of the repository sample (only its Cypress test steps are), so all
  engine definitions are modelled from the design specification, as their doc
  comments record.
* the refresh-timer coordination hooks (`useRefreshInterval`,
  `useManualRefreshState`), embedded from the hook source file as explicit
  state machines.
-/

namespace FindHide

/-- Modelled from the spec: the `GraphElement` attribute record of §3 (the
engine implementation is missing from the sample; only its tests exist).
`app`, `version` and `healthStatus` are optional attributes, `isFind` and
`isHidden` are the two derived selection flags the engine writes back. -/
structure GraphElement where
  app : Option String := none
  version : Option String := none
  «namespace» : String := ""
  cluster : String := ""
  name : String := ""
  nodeType : String := ""
  healthStatus : Option String := none
  isFind : Bool := false
  isHidden : Bool := false
deriving Repr, DecidableEq

/-- Modelled from the spec: the aggregate/box node kind.  The Cypress tests
compare `nodeType` against the string value used by the rendering layer. -/
def isBoxKind (nodeType : String) : Bool := nodeType == "box"

/-- Modelled from the spec: the typed field vocabulary of the Attribute
Schema (§2, §3). -/
inductive Field
  | app
  | version
  | «namespace»
  | cluster
  | name
  | nodeType
  | healthStatus
deriving Repr, DecidableEq

/-- Modelled from the spec: comparison operators of §4.2. -/
inductive CompOp
  | eq
  | ne
  | contains
deriving Repr, DecidableEq

/-- Modelled from the spec: the expression AST of §3.  A `preset` node keeps
the substituted sub-expression, reflecting the parse-time substitution rule. -/
inductive Expression
  | comparison (field : Field) (op : CompOp) (lit : String)
  | negation (operand : Expression)
  | and (left right : Expression)
  | or (left right : Expression)
  | preset (label : String) (sub : Expression)
deriving Repr, DecidableEq

/-- Modelled from the spec: the structured error surfaced on malformed input
(§6, §7): a human-readable message plus a position. -/
structure SyntaxErr where
  message : String
  position : Nat
deriving Repr, DecidableEq

/-- Modelled from the spec: schema lookup of a field's value on an element;
an absent optional attribute behaves as the schema-defined empty default. -/
def getField (f : Field) (e : GraphElement) : String :=
  match f with
  | .app => e.app.getD ""
  | .version => e.version.getD ""
  | .«namespace» => e.«namespace»
  | .cluster => e.cluster
  | .name => e.name
  | .nodeType => e.nodeType
  | .healthStatus => e.healthStatus.getD ""

/-- Whether `needle` occurs as a contiguous run inside `hay`. -/
def hasSubList (needle : List Char) : List Char → Bool
  | [] => needle.isEmpty
  | c :: rest => needle.isPrefixOf (c :: rest) || hasSubList needle rest

/-- Modelled from the spec: applying a comparison operator to the resolved
field value and the literal. -/
def applyOp (op : CompOp) (value lit : String) : Bool :=
  match op with
  | .eq => value == lit
  | .ne => value != lit
  | .contains => hasSubList lit.toList value.toList

/-- Modelled from the spec: the Evaluator of §4.4 — a pure walk of the
expression tree against one element's attribute record. -/
def evaluate : Expression → GraphElement → Bool
  | .comparison f op lit, e => applyOp op (getField f e) lit
  | .negation x, e => !evaluate x e
  | .and l r, e => evaluate l e && evaluate r e
  | .or l r, e => evaluate l e || evaluate r e
  | .preset _ sub, e => evaluate sub e

/-! ### Tokenizer -/

/-- Modelled from the spec: lexical token kinds of §4.1. -/
inductive TokKind
  | ident (s : String)
  | str (s : String)
  | opEq
  | opNe
  | bang
  | lparen
  | rparen
  | dollar
  | invalid (c : Char)
  | eof
deriving Repr, DecidableEq

/-- Modelled from the spec: a token with its source position (§3). -/
structure Token where
  kind : TokKind
  pos : Nat
deriving Repr, DecidableEq

/-- Characters permitted inside a bare identifier / unquoted literal. -/
def isIdentChar (c : Char) : Bool :=
  c.isAlphanum || c == '-' || c == '_' || c == '.'

/-- Scan the body of a quoted string literal, handling escaped characters;
returns the content and the remaining input, or `none` if unterminated. -/
def strLit : Nat → List Char → List Char → Option (List Char × List Char)
  | 0, _, _ => none
  | _ + 1, _, [] => none
  | fuel + 1, acc, '\\' :: c :: rest => strLit fuel (acc ++ [c]) rest
  | _ + 1, acc, '"' :: rest => some (acc, rest)
  | fuel + 1, acc, c :: rest => strLit fuel (acc ++ [c]) rest

/-- Modelled from the spec: the Tokenizer core of §4.1 — a total scan that
turns unrecognized characters into `invalid` tokens and ends with a sentinel
`eof` token.  `total` is the full input length, used to derive positions. -/
def tokenizeAux (fuel : Nat) (total : Nat) (cs : List Char) : List Token :=
  let pos := total - cs.length
  match fuel, cs with
  | 0, _ => [⟨.eof, pos⟩]
  | _ + 1, [] => [⟨.eof, pos⟩]
  | f + 1, c :: rest =>
    if c = ' ' ∨ c = '\t' ∨ c = '\n' then tokenizeAux f total rest
    else if c = '(' then ⟨.lparen, pos⟩ :: tokenizeAux f total rest
    else if c = ')' then ⟨.rparen, pos⟩ :: tokenizeAux f total rest
    else if c = '$' then ⟨.dollar, pos⟩ :: tokenizeAux f total rest
    else if c = '!' then
      match rest with
      | '=' :: rest2 => ⟨.opNe, pos⟩ :: tokenizeAux f total rest2
      | _ => ⟨.bang, pos⟩ :: tokenizeAux f total rest
    else if c = '=' then ⟨.opEq, pos⟩ :: tokenizeAux f total rest
    else if c = '"' then
      match strLit (rest.length + 1) [] rest with
      | some (content, rest2) =>
          ⟨.str (String.mk content), pos⟩ :: tokenizeAux f total rest2
      | none => [⟨.invalid c, pos⟩, ⟨.eof, total⟩]
    else if isIdentChar c then
      ⟨.ident (String.mk ((c :: rest).takeWhile isIdentChar)), pos⟩ ::
        tokenizeAux f total ((c :: rest).dropWhile isIdentChar)
    else ⟨.invalid c, pos⟩ :: tokenizeAux f total rest

/-- Modelled from the spec: `tokenize(text)` of §4.1, a total function from
query text to a token sequence ending in `eof`. -/
def tokenize (text : String) : List Token :=
  tokenizeAux (text.length + 1) text.length text.toList

/-! ### Preset Registry -/

/-- Modelled from the spec: the fixed "find" preset registry of §4.3, label
to canonical query string.  The find dropdown surfaces one preset in the
tested sample. -/
def findPresets : List (String × String) :=
  [("Find: unhealthy nodes", "!healthy")]

/-- Modelled from the spec: the fixed "hide" preset registry of §4.3. -/
def hidePresets : List (String × String) :=
  [("Hide: healthy nodes", "healthy")]

/-- Modelled from the spec: `resolve(label)` of §4.3 — look a label up in a
registry, `none` when the label is not registered. -/
def resolve (reg : List (String × String)) (label : String) : Option String :=
  (reg.find? (fun entry => entry.1 == label)).map (fun entry => entry.2)

/-! ### Parser -/

/-- Case-insensitive keyword handling: lowercase a string character-wise. -/
def lowerStr (s : String) : String := String.mk (s.toList.map Char.toLower)

/-- Map a bare identifier to a schema field, when it names one. -/
def fieldOf (s : String) : Option Field :=
  match lowerStr s with
  | "app" => some .app
  | "version" => some .version
  | "namespace" => some .«namespace»
  | "cluster" => some .cluster
  | "name" => some .name
  | "nodetype" => some .nodeType
  | "healthstatus" => some .healthStatus
  | _ => none

/-- Modelled from the spec: the schema's registered boolean/enum shortcuts
(§4.2): a bare `healthy` stands for the comparison `healthStatus = Healthy`. -/
def shortcutOf (s : String) : Option Expression :=
  match lowerStr s with
  | "healthy" => some (.comparison .healthStatus .eq "Healthy")
  | _ => none

/-- Position of the head of a token list (tokens always end in `eof`). -/
def posOf : List Token → Nat
  | [] => 0
  | t :: _ => t.pos

/-- Read the literal completing a comparison. -/
def expectLit (fld : Field) (op : CompOp) (toks : List Token) :
    Except SyntaxErr (Expression × List Token) :=
  match toks with
  | ⟨.ident v, _⟩ :: rest => .ok (.comparison fld op v, rest)
  | ⟨.str v, _⟩ :: rest => .ok (.comparison fld op v, rest)
  | t => .error ⟨"expected a value", posOf t⟩

/-- Does the head token start a `primary` production? (Used for the
implicit-`and` juxtaposition rule, kept in the parser per §9.) -/
def startsPrimary : List Token → Bool
  | ⟨.bang, _⟩ :: _ => true
  | ⟨.lparen, _⟩ :: _ => true
  | ⟨.dollar, _⟩ :: _ => true
  | ⟨.str _, _⟩ :: _ => true
  | ⟨.ident s, _⟩ :: _ => lowerStr s != "or" && lowerStr s != "and"
  | _ => false

/-- Parser modes: the grammar production currently being parsed.  The
`orRest` / `andRest` modes carry the left-associative accumulator of the
`( "or" andExpr )*` and `( ["and"] unary )*` loops. -/
inductive ParseMode
  | top
  | orE
  | orRest (acc : Expression)
  | andE
  | andRest (acc : Expression)
  | unaryE
  | primaryE
deriving Repr

/-- Modelled from the spec: the recursive-descent parser of §4.2, one fuel
step per grammar transition.  Precedence lowest to highest:
`or` < `and` (implicit or explicit) < unary `!` < comparison < grouping.
`top` parses a whole expression and requires the `eof` sentinel; a preset
reference resolves its label and re-parses the canonical text (parse-time
substitution, §3). -/
def parseGo (fuel : Nat) (reg : List (String × String)) (mode : ParseMode)
    (toks : List Token) : Except SyntaxErr (Expression × List Token) :=
  match fuel with
  | 0 => .error ⟨"query too deep", posOf toks⟩
  | f + 1 =>
    match mode with
    | .top => do
      let (x, t1) ← parseGo f reg .orE toks
      match t1 with
      | ⟨.eof, _⟩ :: _ => .ok (x, [])
      | [] => .ok (x, [])
      | tok :: _ => .error ⟨"unexpected trailing input", tok.pos⟩
    | .orE => do
      let (l, t1) ← parseGo f reg .andE toks
      parseGo f reg (.orRest l) t1
    | .orRest acc =>
      match toks with
      | ⟨.ident s, p⟩ :: rest =>
        if lowerStr s = "or" then do
          let (r, t2) ← parseGo f reg .andE rest
          parseGo f reg (.orRest (.or acc r)) t2
        else .ok (acc, ⟨.ident s, p⟩ :: rest)
      | _ => .ok (acc, toks)
    | .andE => do
      let (l, t1) ← parseGo f reg .unaryE toks
      parseGo f reg (.andRest l) t1
    | .andRest acc =>
      match toks with
      | ⟨.ident s, p⟩ :: rest =>
        if lowerStr s = "and" then do
          let (r, t2) ← parseGo f reg .unaryE rest
          parseGo f reg (.andRest (.and acc r)) t2
        else if startsPrimary (⟨.ident s, p⟩ :: rest) then do
          let (r, t2) ← parseGo f reg .unaryE (⟨.ident s, p⟩ :: rest)
          parseGo f reg (.andRest (.and acc r)) t2
        else .ok (acc, ⟨.ident s, p⟩ :: rest)
      | toks =>
        if startsPrimary toks then do
          let (r, t2) ← parseGo f reg .unaryE toks
          parseGo f reg (.andRest (.and acc r)) t2
        else .ok (acc, toks)
    | .unaryE =>
      match toks with
      | ⟨.bang, _⟩ :: rest => do
        let (x, t1) ← parseGo f reg .unaryE rest
        .ok (.negation x, t1)
      | _ => parseGo f reg .primaryE toks
    | .primaryE =>
      match toks with
      | ⟨.lparen, _⟩ :: rest => do
        let (x, t1) ← parseGo f reg .orE rest
        match t1 with
        | ⟨.rparen, _⟩ :: t2 => .ok (x, t2)
        | t => .error ⟨"unterminated group", posOf t⟩
      | ⟨.dollar, p⟩ :: rest =>
        match rest with
        | ⟨.ident label, _⟩ :: t2 =>
          match resolve reg label with
          | none => .error ⟨"unknown preset: " ++ label, p⟩
          | some q =>
            match parseGo f reg .top (tokenize q) with
            | .ok (sub, _) => .ok (.preset label sub, t2)
            | .error err => .error err
        | t => .error ⟨"expected a preset name", posOf t⟩
      | ⟨.ident s, p⟩ :: rest =>
        if lowerStr s = "and" ∨ lowerStr s = "or" then
          .error ⟨"expected a field name", p⟩
        else
          match fieldOf s with
          | some fld =>
            match rest with
            | ⟨.opEq, _⟩ :: rest2 => expectLit fld .eq rest2
            | ⟨.opNe, _⟩ :: rest2 => expectLit fld .ne rest2
            | ⟨.ident w, pw⟩ :: rest2 =>
              if lowerStr w = "contains" then expectLit fld .contains rest2
              else expectLit fld .eq (⟨.ident w, pw⟩ :: rest2)
            | ⟨.str v, pv⟩ :: rest2 => expectLit fld .eq (⟨.str v, pv⟩ :: rest2)
            | t => .error ⟨"expected comparison or value", posOf t⟩
          | none =>
            match shortcutOf s with
            | some ex => .ok (ex, rest)
            | none => .error ⟨"unknown keyword: " ++ s, p⟩
      | t => .error ⟨"expected a field name", posOf t⟩

/-- Modelled from the spec: `parse` of §4.2 — tokenize then parse, with fuel
ample for any input of the given length (each step consumes input or descends
one bounded level; preset substitution re-parses a short canonical string). -/
def parseQuery (reg : List (String × String)) (text : String) :
    Except SyntaxErr Expression :=
  match parseGo (text.length * 8 + 64) reg .top (tokenize text) with
  | .ok (x, _) => .ok x
  | .error err => .error err

/-- Modelled from the spec: parse-time preset substitution (§3, §4.3) — the
dropdown path resolves the label to its canonical query, parses it and wraps
the result in a `preset` node carrying the substituted sub-expression. -/
def resolvePreset (reg : List (String × String)) (label : String) :
    Except SyntaxErr Expression :=
  match resolve reg label with
  | none => .error ⟨"unknown preset: " ++ label, 0⟩
  | some q =>
    match parseQuery reg q with
    | .ok sub => .ok (.preset label sub)
    | .error err => .error err

/-! ### Selection Controller -/

/-- Modelled from the spec: the per-element flag computation of §4.5.
`isFind` is the find query's evaluation (box nodes included); `isHidden` is
the hide query's evaluation except that aggregate/box elements are never
marked hidden; an empty query clears its flag. -/
def applyElement (find hide : Option Expression) (e : GraphElement) :
    GraphElement :=
  { e with
    isFind := match find with
      | none => false
      | some q => evaluate q e
    isHidden := match hide with
      | none => false
      | some q => if isBoxKind e.nodeType then false else evaluate q e }

/-- Modelled from the spec: `apply` of §4.5 — a full pass writing both
selection flags on every element. -/
def apply (find hide : Option Expression) (elements : List GraphElement) :
    List GraphElement :=
  elements.map (applyElement find hide)

/-- A query text consisting only of whitespace counts as the empty query. -/
def isBlank (text : String) : Bool := text.toList.all Char.isWhitespace

/-- Modelled from the spec: the controller's session state (§5) — the
current find and hide queries and the externally-owned element collection. -/
structure ControllerState where
  findQuery : Option Expression := none
  hideQuery : Option Expression := none
  elements : List GraphElement := []
deriving Repr, DecidableEq

/-- Modelled from the spec: submitting find-box text (§4.5, §7).  Empty text
clears the find query and re-applies; malformed text leaves the state
untouched and surfaces the error; valid text becomes the new find query. -/
def submitFind (text : String) (st : ControllerState) :
    ControllerState × Option SyntaxErr :=
  if isBlank text then
    ({ st with findQuery := none,
               elements := apply none st.hideQuery st.elements }, none)
  else
    match parseQuery findPresets text with
    | .ok ex =>
      ({ st with findQuery := some ex,
                 elements := apply (some ex) st.hideQuery st.elements }, none)
    | .error err => (st, some err)

/-- Modelled from the spec: submitting hide-box text (§4.5, §7), symmetric
to `submitFind` but against the hide registry and hide flag. -/
def submitHide (text : String) (st : ControllerState) :
    ControllerState × Option SyntaxErr :=
  if isBlank text then
    ({ st with hideQuery := none,
               elements := apply st.findQuery none st.elements }, none)
  else
    match parseQuery hidePresets text with
    | .ok ex =>
      ({ st with hideQuery := some ex,
                 elements := apply st.findQuery (some ex) st.elements }, none)
    | .error err => (st, some err)

/-! ### Sample inputs (from the Cypress scenarios) -/

/-- The comparison a bare `healthy` shortcut stands for. -/
def sampleHealthy : Expression := .comparison .healthStatus .eq "Healthy"

/-- The parsed form of the `!healthy` query. -/
def sampleUnhealthy : Expression := .negation sampleHealthy

/-- An aggregate/box element whose health matches a hide query. -/
def sampleBoxElement : GraphElement :=
  { nodeType := "box", healthStatus := some "Failure" }

/-- First element of Scenario A. -/
def sampleElement1 : GraphElement :=
  { app := some "v-server", version := some "v1", «namespace» := "alpha",
    healthStatus := some "Failure" }

/-- Second element of Scenario A. -/
def sampleElement2 : GraphElement :=
  { app := some "x", healthStatus := some "Healthy" }

/-- A controller state with both queries active over the two sample
elements. -/
def sampleState : ControllerState :=
  { findQuery := some sampleHealthy, hideQuery := some sampleHealthy,
    elements := [sampleElement1, sampleElement2] }

/-- Evaluate the expression of a parse result on an element, `none` when
the parse failed. -/
def evalParsed (r : Except SyntaxErr Expression) (e : GraphElement) :
    Option Bool :=
  match r with
  | .ok ex => some (evaluate ex e)
  | .error _ => none

end FindHide

namespace Refresh

/-!
State machine embedded from the refresh hook module: the module-level
globals `numSubscribers` and `intervalId`, together with the environment
they act on — the set of registered `refreshTick` listeners and the set of
live (not yet cleared) browser intervals.  `nextIntervalId` models the
browser handing out fresh interval handles.
-/

/-- The shared module state of the refresh hook plus its DOM/browser
environment: `numSubscribers` and `intervalId` are the two module-level
variables; `listeners` the handlers registered via `addEventListener`;
`liveIntervals` the intervals created by `setInterval` and not yet passed to
`clearInterval`. -/
structure RState where
  numSubscribers : Int
  intervalId : Option Nat
  listeners : List Nat
  liveIntervals : List Nat
  nextIntervalId : Nat
deriving Repr, DecidableEq

/-- The module's initial state: zero subscribers, no interval. -/
def initState : RState :=
  { numSubscribers := 0, intervalId := none, listeners := [],
    liveIntervals := [], nextIntervalId := 0 }

/-- Body of the subscription effect: `addEventListener` then
`numSubscribers++`. -/
def subscribeStep (h : Nat) (s : RState) : RState :=
  { s with listeners := s.listeners ++ [h],
           numSubscribers := s.numSubscribers + 1 }

/-- Cleanup of the subscription effect: `removeEventListener` then
`numSubscribers--`. -/
def unsubscribeStep (h : Nat) (s : RState) : RState :=
  { s with listeners := s.listeners.erase h,
           numSubscribers := s.numSubscribers - 1 }

/-- The `clearInterval(intervalId); intervalId = null` sequence, a no-op
when `intervalId` is already null. -/
def clearCurrent (s : RState) : RState :=
  match s.intervalId with
  | none => s
  | some i => { s with intervalId := none,
                       liveIntervals := s.liveIntervals.erase i }

/-- Body of the timer effect: clear any existing interval, then create a
new one exactly when there is at least one subscriber and the configured
interval exceeds 1 ms. -/
def timerEffectStep (refreshInterval : Int) (s : RState) : RState :=
  let s1 := clearCurrent s
  if s1.numSubscribers ≠ 0 ∧ refreshInterval > 1 then
    { s1 with intervalId := some s1.nextIntervalId,
              liveIntervals := s1.liveIntervals ++ [s1.nextIntervalId],
              nextIntervalId := s1.nextIntervalId + 1 }
  else s1

/-- Cleanup of the timer effect: clear the interval only when one exists
and the subscriber count has reached zero. -/
def timerCleanupStep (s : RState) : RState :=
  if s.intervalId.isSome ∧ s.numSubscribers = 0 then clearCurrent s else s

/-- One `doTick` dispatch: a single `refreshTick` CustomEvent carrying time
`t` is delivered to every currently registered listener. -/
def deliveries (t : Int) (s : RState) : List (Nat × Int) :=
  s.listeners.map (fun h => (h, t))

/-- The events that drive the shared refresh state. -/
inductive REvent
  | subscribe (h : Nat)
  | unsubscribe (h : Nat)
  | timerEffect (refreshInterval : Int)
  | timerCleanup
  | tick (t : Int)
deriving Repr, DecidableEq

/-- Transition function; a `tick` dispatch does not change the shared
module state (its deliveries are described by `deliveries`). -/
def step (e : REvent) (s : RState) : RState :=
  match e with
  | .subscribe h => subscribeStep h s
  | .unsubscribe h => unsubscribeStep h s
  | .timerEffect i => timerEffectStep i s
  | .timerCleanup => timerCleanupStep s
  | .tick _ => s

/-- Run a sequence of events from a state. -/
def run (evs : List REvent) (s : RState) : RState :=
  evs.foldl (fun s e => step e s) s

/-- The interval bookkeeping invariant: the recorded `intervalId` is exactly
the live intervals — `some i` mirrors the single live interval `[i]`, `none`
mirrors no live interval. -/
def intervalInv (s : RState) : Bool :=
  match s.intervalId with
  | some i => s.liveIntervals == [i]
  | none => s.liveIntervals == []

end Refresh

namespace ManualRefresh

/-!
State machine embedded from `useManualRefreshState` (and the
`useRefreshInterval` per-component state it consumes): `loaded` React state,
the `initialRefreshAt` and `prevRefreshInterval` refs, and the
`lastRefreshAt` / `refreshInterval` inputs.  The Manual sentinel value is a
parameter `manual`, imported by the code from external configuration.
-/

/-- Per-component state of the hook. -/
structure MState where
  loaded : Bool
  initialRefreshAt : Int
  prevRefreshInterval : Int
  lastRefreshAt : Int
  previousRefreshAt : Int
  refreshInterval : Int
deriving Repr, DecidableEq

/-- Initial render: `loaded` starts true unless manual mode is detected
from the Redux interval or from the URL refresh parameter. -/
def mInit (manual redux : Int) (urlRefresh : Option Int) (t0 : Int) : MState :=
  { loaded := (redux != manual) && (urlRefresh != some manual)
    initialRefreshAt := t0
    prevRefreshInterval := redux
    lastRefreshAt := t0
    previousRefreshAt := t0
    refreshInterval := redux }

/-- Effect 1: a refresh observed while not loaded (`lastRefreshAt` moved
away from its initial value) sets `loaded` to true. -/
def effect1 (s : MState) : MState :=
  if !s.loaded ∧ s.lastRefreshAt ≠ s.initialRefreshAt then
    { s with loaded := true }
  else s

/-- Effect 2: record the previous interval in the ref and, when not loaded
and the interval just transitioned away from Manual, set `loaded` to true. -/
def effect2 (manual : Int) (s : MState) : MState :=
  let prev := s.prevRefreshInterval
  let s1 := { s with prevRefreshInterval := s.refreshInterval }
  if !s1.loaded ∧ prev = manual ∧ s1.refreshInterval ≠ manual then
    { s1 with loaded := true }
  else s1

/-- After any render both effects run (running an effect whose dependencies
did not change is a no-op on `loaded`). -/
def runEffects (manual : Int) (s : MState) : MState :=
  effect2 manual (effect1 s)

/-- The inputs that can change across renders: a refresh tick updating
`lastRefreshAt`, or a new Redux `refreshInterval`. -/
inductive MEvent
  | tick (t : Int)
  | setRefreshInterval (i : Int)
deriving Repr, DecidableEq

/-- One render cycle: apply the input change, then run the effects. -/
def mstep (manual : Int) (e : MEvent) (s : MState) : MState :=
  match e with
  | .tick t =>
    runEffects manual
      { s with previousRefreshAt := s.lastRefreshAt, lastRefreshAt := t }
  | .setRefreshInterval i =>
    runEffects manual { s with refreshInterval := i }

/-- Run a sequence of render cycles. -/
def mrun (manual : Int) (evs : List MEvent) (s : MState) : MState :=
  evs.foldl (fun s e => mstep manual e s) s

end ManualRefresh

/-! ## Theorems -/

namespace FindHide

/-- The evaluator only reads attribute fields, never the selection flags,
so evaluation is unchanged by a previous flag write. -/
theorem evaluate_applyElement (q : Expression) (find hide : Option Expression)
    (e : GraphElement) :
    evaluate q (applyElement find hide e) = evaluate q e := by
  induction q with
  | comparison f op lit => cases f <;> rfl
  | negation x ih => simp [evaluate, ih]
  | and l r ihl ihr => simp [evaluate, ihl, ihr]
  | or l r ihl ihr => simp [evaluate, ihl, ihr]
  | preset label sub ih => simpa [evaluate] using ih

/-- Writing flags preserves every attribute the engine reads. -/
theorem applyElement_nodeType (find hide : Option Expression)
    (e : GraphElement) :
    (applyElement find hide e).nodeType = e.nodeType := rfl

/-- Claim C6: for every expression `x` and element `e`, evaluating a
`Negation` node is the boolean negation of evaluating its operand. -/
theorem findhide_negation_correct (x : Expression) (e : GraphElement) :
    evaluate (.negation x) e = !evaluate x e := rfl

/-- Claim C1: `apply` never hides an aggregate/box element, whatever the
hide query evaluates to, and after hiding every still-visible element
either fails the hide predicate or is a box. -/
theorem findhide_box_exemption (q : Expression) (find : Option Expression)
    (elems : List GraphElement) (el : GraphElement)
    (hmem : el ∈ apply find (some q) elems) :
    (el.nodeType = "box" → el.isHidden = false) ∧
    (el.isHidden = false → evaluate q el = false ∨ el.nodeType = "box") := by
  rcases List.mem_map.mp hmem with ⟨e, _, rfl⟩
  have hnt : (applyElement find (some q) e).nodeType = e.nodeType := rfl
  have hh : (applyElement find (some q) e).isHidden
      = if isBoxKind e.nodeType then false else evaluate q e := rfl
  constructor
  · intro hbox
    rw [hnt] at hbox
    rw [hh]
    simp [isBoxKind, hbox]
  · intro hvis
    rw [hh] at hvis
    by_cases hb : isBoxKind e.nodeType = true
    · right
      rw [hnt]
      simpa [isBoxKind] using hb
    · left
      rw [evaluate_applyElement]
      simpa [hb] using hvis

/-- Claim C1 witness: a box element matching the hide query is still not
hidden. -/
theorem findhide_box_exemption_witness :
    (applyElement none (some sampleHealthy) sampleBoxElement).isHidden = false :=
  (findhide_box_exemption sampleHealthy none [sampleBoxElement]
    (applyElement none (some sampleHealthy) sampleBoxElement)
    (by simp [apply])).1 rfl

/-- Claim C3: an empty find query clears every `isFind` flag, an empty hide
query clears every `isHidden` flag, and after clearing both boxes no element
carries a true selection flag. -/
theorem findhide_noop_clears (st : ControllerState) :
    (∀ el ∈ ((submitFind "" st).1).elements, el.isFind = false) ∧
    (∀ el ∈ ((submitHide "" st).1).elements, el.isHidden = false) ∧
    (∀ el ∈ ((submitHide "" (submitFind "" st).1).1).elements,
        el.isFind = false ∧ el.isHidden = false) := by
  have htrim : isBlank "" = true := rfl
  refine ⟨?_, ?_, ?_⟩
  · intro el hmem
    simp only [submitFind, htrim, if_pos, reduceIte] at hmem
    rcases List.mem_map.mp hmem with ⟨e, _, rfl⟩
    rfl
  · intro el hmem
    simp only [submitHide, htrim, if_pos, reduceIte] at hmem
    rcases List.mem_map.mp hmem with ⟨e, _, rfl⟩
    rfl
  · intro el hmem
    simp only [submitFind, submitHide, htrim, if_pos, reduceIte] at hmem
    rcases List.mem_map.mp hmem with ⟨e, _, rfl⟩
    exact ⟨rfl, rfl⟩

/-- Claim C3 witness: after clearing both query boxes over the sample
state, the first element carries no true selection flag. -/
theorem findhide_noop_clears_witness :
    (applyElement (none : Option Expression) none
        (applyElement none (some sampleHealthy) sampleElement1)).isFind = false ∧
    (applyElement (none : Option Expression) none
        (applyElement none (some sampleHealthy) sampleElement1)).isHidden = false :=
  (findhide_noop_clears sampleState).2.2 _ (by decide)

/-- Claim C2: the find query `!healthy` highlights exactly the elements
whose health status is not `Healthy`; on the Scenario A pair the first
element gets `isFind = true` and the second `isFind = false`. -/
theorem findhide_find_unhealthy (ex : Expression)
    (hp : parseQuery findPresets "!healthy" = .ok ex) :
    ((apply (some ex) none [sampleElement1, sampleElement2]).map
        (fun el => el.isFind) = [true, false]) ∧
    (∀ elems el, el ∈ apply (some ex) none elems →
        el.isFind = !(el.healthStatus == some "Healthy")) := by
  have hcomp : parseQuery findPresets "!healthy" = .ok sampleUnhealthy := rfl
  rw [hcomp] at hp
  injection hp with h
  subst h
  constructor
  · rfl
  · intro elems el hmem
    rcases List.mem_map.mp hmem with ⟨e, _, rfl⟩
    cases hhs : e.healthStatus with
    | none =>
      simp [applyElement, evaluate, applyOp, getField, sampleUnhealthy,
        sampleHealthy, hhs]
    | some v =>
      simp [applyElement, evaluate, applyOp, getField, sampleUnhealthy,
        sampleHealthy, hhs]

/-- Claim C2 witness: the Scenario A flags at the concrete parsed query. -/
theorem findhide_find_unhealthy_witness :
    (apply (some sampleUnhealthy) none [sampleElement1, sampleElement2]).map
      (fun el => el.isFind) = [true, false] :=
  (findhide_find_unhealthy sampleUnhealthy rfl).1

/-- Claim C4: malformed query text yields a `SyntaxErr` with a message and
position, the controller state (and so every selection flag) is unchanged,
and `apply` is not re-run; concretely `app ===` and bare `app` both fail. -/
theorem findhide_fail_closed (textF textH : String) (st : ControllerState)
    (errF errH : SyntaxErr)
    (hbF : isBlank textF = false) (hbH : isBlank textH = false)
    (hF : parseQuery findPresets textF = .error errF)
    (hH : parseQuery hidePresets textH = .error errH) :
    submitFind textF st = (st, some errF) ∧
    submitHide textH st = (st, some errH) ∧
    parseQuery findPresets "app ===" = .error ⟨"expected a value", 5⟩ ∧
    parseQuery hidePresets "app" = .error ⟨"expected comparison or value", 3⟩ := by
  refine ⟨?_, ?_, rfl, rfl⟩
  · simp [submitFind, hbF, hF]
  · simp [submitHide, hbH, hH]

/-- Claim C4 witness: submitting `app ===` in the find box over the sample
state returns the error and leaves the state untouched. -/
theorem findhide_fail_closed_witness :
    submitFind "app ===" sampleState = (sampleState, some ⟨"expected a value", 5⟩) :=
  (findhide_fail_closed "app ===" "app" sampleState
    ⟨"expected a value", 5⟩ ⟨"expected comparison or value", 3⟩
    rfl rfl rfl rfl).1

/-- Claim C5: for a registered preset label, evaluating the parsed `preset`
node agrees with evaluating the parse of the registry's canonical query on
every element, and applying either produces the same selection flags. -/
theorem findhide_preset_equivalence (reg : List (String × String))
    (label q : String) (hres : resolve reg label = some q) :
    (∀ e, evalParsed (resolvePreset reg label) e
        = evalParsed (parseQuery reg q) e) ∧
    (∀ sub hide elems, parseQuery reg q = .ok sub →
        resolvePreset reg label = .ok (.preset label sub) ∧
        apply (some (Expression.preset label sub)) hide elems
          = apply (some sub) hide elems) := by
  constructor
  · intro e
    cases hq : parseQuery reg q <;>
      simp [resolvePreset, evalParsed, evaluate, hres, hq]
  · intro sub hide elems hq
    refine ⟨?_, rfl⟩
    simp [resolvePreset, hres, hq]

/-- Claim C5 witness: the registered find preset agrees with its canonical
text `!healthy` on the first sample element. -/
theorem findhide_preset_equivalence_witness :
    evalParsed (resolvePreset findPresets "Find: unhealthy nodes") sampleElement1
      = evalParsed (parseQuery findPresets "!healthy") sampleElement1 :=
  (findhide_preset_equivalence findPresets "Find: unhealthy nodes" "!healthy"
    rfl).1 sampleElement1

end FindHide

namespace Refresh

/-- Clearing the current interval does not touch the subscriber counter. -/
theorem clearCurrent_numSubscribers (s : RState) :
    (clearCurrent s).numSubscribers = s.numSubscribers := by
  cases h : s.intervalId <;> simp [clearCurrent, h]

/-- Under the bookkeeping invariant, clearing leaves no recorded and no
live interval. -/
theorem clearCurrent_of_inv (s : RState) (h : intervalInv s = true) :
    (clearCurrent s).intervalId = none ∧ (clearCurrent s).liveIntervals = [] := by
  cases hs : s.intervalId with
  | none =>
    have h2 : s.liveIntervals = [] := by simpa [intervalInv, hs] using h
    simp [clearCurrent, hs, h2]
  | some i =>
    have h2 : s.liveIntervals = [i] := by simpa [intervalInv, hs] using h
    simp [clearCurrent, hs, h2]

/-- Every transition preserves the interval bookkeeping invariant. -/
theorem intervalInv_step (e : REvent) (s : RState) (h : intervalInv s = true) :
    intervalInv (step e s) = true := by
  cases e with
  | subscribe hdl =>
    cases hs : s.intervalId <;>
      simpa [step, subscribeStep, intervalInv, hs] using
        (by simpa [intervalInv, hs] using h)
  | unsubscribe hdl =>
    cases hs : s.intervalId <;>
      simpa [step, unsubscribeStep, intervalInv, hs] using
        (by simpa [intervalInv, hs] using h)
  | tick t => exact h
  | timerCleanup =>
    obtain ⟨h1, h2⟩ := clearCurrent_of_inv s h
    by_cases hg : s.intervalId.isSome = true ∧ s.numSubscribers = 0
    · simp [step, timerCleanupStep, hg, intervalInv, h1, h2]
    · simpa [step, timerCleanupStep, hg] using h
  | timerEffect i =>
    obtain ⟨h1, h2⟩ := clearCurrent_of_inv s h
    by_cases hg : (clearCurrent s).numSubscribers ≠ 0 ∧ i > 1
    · simp [step, timerEffectStep, hg, intervalInv, h1, h2]
    · simp [step, timerEffectStep, hg, intervalInv, h1, h2]

/-- The invariant holds along every run from an invariant state. -/
theorem intervalInv_run (evs : List REvent) :
    ∀ s : RState, intervalInv s = true → intervalInv (run evs s) = true := by
  induction evs with
  | nil => intro s h; exact h
  | cons e evs ih =>
    intro s h
    simpa [run] using ih (step e s) (intervalInv_step e s h)

/-- The invariant bounds the number of live intervals by one. -/
theorem liveIntervals_le_one (s : RState) (h : intervalInv s = true) :
    s.liveIntervals.length ≤ 1 := by
  cases hs : s.intervalId with
  | none =>
    have h2 : s.liveIntervals = [] := by simpa [intervalInv, hs] using h
    simp [h2]
  | some i =>
    have h2 : s.liveIntervals = [i] := by simpa [intervalInv, hs] using h
    simp [h2]

/-- Claim C7: subscribers are reference-counted in the shared counter, at
most one interval is live at any reachable state (any existing interval is
cleared before a new one is created), each tick is one event delivered to
every current subscriber, and the interval is cleaned up once the
subscriber count returns to zero. -/
theorem refresh_single_interval :
    (∀ s hdl, (subscribeStep hdl s).numSubscribers = s.numSubscribers + 1 ∧
        (subscribeStep hdl s).listeners = s.listeners ++ [hdl] ∧
        (unsubscribeStep hdl s).numSubscribers = s.numSubscribers - 1 ∧
        (unsubscribeStep hdl s).listeners = s.listeners.erase hdl) ∧
    (∀ s hdl, s.numSubscribers = (s.listeners.length : Int) →
        ((subscribeStep hdl s).numSubscribers
            = ((subscribeStep hdl s).listeners.length : Int)) ∧
        (hdl ∈ s.listeners →
          (unsubscribeStep hdl s).numSubscribers
              = ((unsubscribeStep hdl s).listeners.length : Int))) ∧
    (∀ evs, intervalInv (run evs initState) = true ∧
        (run evs initState).liveIntervals.length ≤ 1) ∧
    (∀ t s hdl, hdl ∈ s.listeners ↔ (hdl, t) ∈ deliveries t s) ∧
    (∀ s hdl, intervalInv s = true → s.numSubscribers = 1 →
        (timerCleanupStep (unsubscribeStep hdl s)).intervalId = none ∧
        (timerCleanupStep (unsubscribeStep hdl s)).liveIntervals = []) := by
  refine ⟨?_, ?_, ?_, ?_, ?_⟩
  · intro s hdl
    exact ⟨rfl, rfl, rfl, rfl⟩
  · intro s hdl hsync
    constructor
    · simp [subscribeStep, hsync]
    · intro hmem
      have hlen := List.length_erase_of_mem hmem
      have hpos : 0 < s.listeners.length :=
        List.length_pos.mpr (List.ne_nil_of_mem hmem)
      simp only [unsubscribeStep, hlen]
      omega
  · intro evs
    have hinv := intervalInv_run evs initState (by rfl)
    exact ⟨hinv, liveIntervals_le_one _ hinv⟩
  · intro t s hdl
    simp [deliveries]
  · intro s hdl hinv hone
    have hid : (unsubscribeStep hdl s).intervalId = s.intervalId := rfl
    have hlive : (unsubscribeStep hdl s).liveIntervals = s.liveIntervals := rfl
    have hzero : (unsubscribeStep hdl s).numSubscribers = 0 := by
      simp [unsubscribeStep, hone]
    cases hs : s.intervalId with
    | none =>
      have h2 : s.liveIntervals = [] := by simpa [intervalInv, hs] using hinv
      simp [timerCleanupStep, hid, hlive, hs, h2]
    | some i =>
      have h2 : s.liveIntervals = [i] := by simpa [intervalInv, hs] using hinv
      simp [timerCleanupStep, hid, hlive, hzero, hs, h2, clearCurrent]

/-- Claim C7 witness: subscribing then starting the timer keeps the live
interval count at one, and the final unsubscription clears the interval. -/
theorem refresh_single_interval_witness :
    intervalInv (run [REvent.subscribe 0, REvent.timerEffect 1000] initState) = true ∧
    (run [REvent.subscribe 0, REvent.timerEffect 1000] initState).liveIntervals.length ≤ 1 ∧
    (timerCleanupStep (unsubscribeStep 0
        (run [REvent.subscribe 0, REvent.timerEffect 1000] initState))).intervalId = none :=
  ⟨(refresh_single_interval.2.2.1 [REvent.subscribe 0, REvent.timerEffect 1000]).1,
   (refresh_single_interval.2.2.1 [REvent.subscribe 0, REvent.timerEffect 1000]).2,
   (refresh_single_interval.2.2.2.2
      (run [REvent.subscribe 0, REvent.timerEffect 1000] initState) 0
      (refresh_single_interval.2.2.1 [REvent.subscribe 0, REvent.timerEffect 1000]).1
      (by decide)).1⟩

/-- No event other than a the timer effect with a sufficient interval can
create an interval: runs whose timer-effect intervals are all at most 1 ms
never hold an interval. -/
theorem noInterval_run (evs : List REvent) :
    ∀ s : RState, (∀ j, REvent.timerEffect j ∈ evs → j ≤ 1) →
      s.intervalId = none → s.liveIntervals = [] →
      (run evs s).intervalId = none ∧ (run evs s).liveIntervals = [] := by
  induction evs with
  | nil => intro s _ h1 h2; exact ⟨h1, h2⟩
  | cons e evs ih =>
    intro s hle h1 h2
    have hstep : (step e s).intervalId = none ∧ (step e s).liveIntervals = [] := by
      cases e with
      | subscribe hdl => exact ⟨h1, h2⟩
      | unsubscribe hdl => exact ⟨h1, h2⟩
      | tick t => exact ⟨h1, h2⟩
      | timerCleanup => simp [step, timerCleanupStep, h1, h2]
      | timerEffect j =>
        have hj : j ≤ 1 := hle j (by simp)
        have hclear : clearCurrent s = s := by simp [clearCurrent, h1]
        simp [step, timerEffectStep, hclear, h1, h2, Int.not_lt.mpr hj]
    have hrest := ih (step e s)
      (fun j hj => hle j (List.mem_cons_of_mem _ hj)) hstep.1 hstep.2
    simpa [run] using hrest

/-- Claim C8: the timer effect creates an interval exactly when the
subscriber count is non-zero and the configured interval exceeds 1 ms; with
intervals of at most 1 ms no interval is ever created. -/
theorem refresh_interval_guard :
    (∀ (i : Int) (s : RState),
        (timerEffectStep i s).intervalId.isSome = true ↔
          (s.numSubscribers ≠ 0 ∧ 1 < i)) ∧
    (∀ evs, (∀ j, REvent.timerEffect j ∈ evs → j ≤ 1) →
        (run evs initState).intervalId = none ∧
        (run evs initState).liveIntervals = []) := by
  constructor
  · intro i s
    have hn : (clearCurrent s).numSubscribers = s.numSubscribers :=
      clearCurrent_numSubscribers s
    have hidnone : (clearCurrent s).intervalId = none := by
      cases h2 : s.intervalId <;> simp [clearCurrent, h2]
    by_cases hc : s.numSubscribers ≠ 0 ∧ 1 < i
    · have hg : (clearCurrent s).numSubscribers ≠ 0 ∧ i > 1 := by
        rw [hn]; exact hc
      simp [timerEffectStep, hg, hc]
    · have hg : ¬((clearCurrent s).numSubscribers ≠ 0 ∧ i > 1) := by
        rw [hn]; exact hc
      simp [timerEffectStep, hg, hidnone, hc]
  · intro evs hle
    exact noInterval_run evs initState hle rfl rfl

/-- Claim C8 witness: with one subscriber and a 1000 ms interval an
interval is created; with a 1 ms (manual-sentinel-like) interval no run
ever creates one. -/
theorem refresh_interval_guard_witness :
    (timerEffectStep 1000 (subscribeStep 0 initState)).intervalId.isSome = true ∧
    (run [REvent.subscribe 0, REvent.timerEffect 1, REvent.tick 5] initState).intervalId = none :=
  ⟨(refresh_interval_guard.1 1000 (subscribeStep 0 initState)).mpr (by decide),
   (refresh_interval_guard.2 [REvent.subscribe 0, REvent.timerEffect 1, REvent.tick 5]
      (by intro j hj; simp at hj; omega)).1⟩

end Refresh

namespace ManualRefresh

/-- Effect 1 never unsets `loaded`. -/
theorem effect1_loaded (s : MState) (h : s.loaded = true) :
    (effect1 s).loaded = true := by
  simp [effect1, h]

/-- Effect 2 never unsets `loaded`. -/
theorem effect2_loaded (manual : Int) (s : MState) (h : s.loaded = true) :
    (effect2 manual s).loaded = true := by
  simp [effect2, h]

/-- Effect 1 leaves the interval-tracking fields alone. -/
theorem effect1_intervals (s : MState) :
    (effect1 s).prevRefreshInterval = s.prevRefreshInterval ∧
    (effect1 s).refreshInterval = s.refreshInterval := by
  unfold effect1
  split <;> exact ⟨rfl, rfl⟩

/-- Effect 1 sets `loaded` whenever the last refresh moved away from its
initial value. -/
theorem effect1_fires (x : MState)
    (h : x.lastRefreshAt ≠ x.initialRefreshAt) :
    (effect1 x).loaded = true := by
  by_cases hx : x.loaded = true
  · exact effect1_loaded x hx
  · have hf : x.loaded = false := by revert hx; cases x.loaded <;> simp
    simp [effect1, hf, h]

/-- Effect 2 sets `loaded` whenever the interval just transitioned away
from the Manual sentinel. -/
theorem effect2_fires (manual : Int) (x : MState)
    (hprev : x.prevRefreshInterval = manual)
    (hri : x.refreshInterval ≠ manual) :
    (effect2 manual x).loaded = true := by
  by_cases hx : x.loaded = true
  · exact effect2_loaded manual x hx
  · have hf : x.loaded = false := by revert hx; cases x.loaded <;> simp
    simp [effect2, hf, hprev, hri]

/-- Claim C9: the `loaded` flag of the manual-refresh hook is monotone —
never reset once true — whether it became true initially (neither source
equals the Manual sentinel), via a refresh tick moving `lastRefreshAt`, or
via the interval transitioning away from Manual. -/
theorem manual_refresh_loaded_monotone (manual : Int) :
    (∀ e s, s.loaded = true → (mstep manual e s).loaded = true) ∧
    (∀ evs s, s.loaded = true → (mrun manual evs s).loaded = true) ∧
    (∀ redux urlRefresh t0, redux ≠ manual → urlRefresh ≠ some manual →
        (mInit manual redux urlRefresh t0).loaded = true) ∧
    (∀ s t, t ≠ s.initialRefreshAt →
        (mstep manual (.tick t) s).loaded = true) ∧
    (∀ s i, s.prevRefreshInterval = manual → i ≠ manual →
        (mstep manual (.setRefreshInterval i) s).loaded = true) := by
  have hstep : ∀ e s, s.loaded = true → (mstep manual e s).loaded = true := by
    intro e s h
    cases e with
    | tick t => exact effect2_loaded manual _ (effect1_loaded _ h)
    | setRefreshInterval i => exact effect2_loaded manual _ (effect1_loaded _ h)
  refine ⟨hstep, ?_, ?_, ?_, ?_⟩
  · intro evs
    induction evs with
    | nil => intro s h; exact h
    | cons e evs ih =>
      intro s h
      simpa [mrun] using ih (mstep manual e s) (hstep e s h)
  · intro redux urlRefresh t0 h1 h2
    simp [mInit, h1, h2]
  · intro s t ht
    exact effect2_loaded manual _ (effect1_fires _ ht)
  · intro s i hprev hi
    have hpi := effect1_intervals { s with refreshInterval := i }
    exact effect2_fires manual _ (hpi.1.trans hprev) (by rw [hpi.2]; exact hi)

/-- Claim C9 witness: starting outside manual mode, `loaded` is true and a
later tick keeps it true. -/
theorem manual_refresh_loaded_monotone_witness :
    (mrun 0 [MEvent.tick 5] (mInit 0 60000 none 1)).loaded = true :=
  (manual_refresh_loaded_monotone 0).2.1 [MEvent.tick 5] (mInit 0 60000 none 1)
    ((manual_refresh_loaded_monotone 0).2.2.1 60000 none 1 (by decide) (by decide))

end ManualRefresh
